import Mathlib

/-!
Shallow embedding of the toba/handlebars Express template adapter.

Embedded source files:
* `src/unnamed/part_008` — the `ExpressHandlebars` class (options, constructor,
  `addExtension`, `partialName`, `renderer`, `render`, `loadTemplate`,
  `getPlaceholderContent`, `addPlaceholderContent`).
* `src/lib/placeholder-helper.ts` — `placeholder`, `getContent`, `addContent`.

External collaborators modelled explicitly:
* The Handlebars compiler/runtime is external. A compiled template is modelled
  as an abstract syntax tree of literal-text and mustache-reference tokens;
  `hbs.compile` is modelled as producing a fresh invocable artifact (a fresh
  identity plus the source AST), matching the fact that every call of
  `Handlebars.compile` in JavaScript returns a new function object.
* The Handlebars runtime rule for a mustache whose resolved context value is a
  function: the function is invoked with the helper-options object as its sole
  argument, so a compiled template delegate stored in the context renders with
  that options object (fields such as `name`) as its data context.
* `@toba/tools` `Cache` is modelled as a key/value map with overwriting `add`;
  `is.empty` on a string is the empty-string test; `merge` is option merging.
* `fs.readFile` is modelled by a map from path to optional file content, plus a
  counter of issued reads in the engine state.
-/

namespace TobaHandlebars

/-! ## JavaScript string primitives used by the source, over `List Char` -/

/-- The separator class of the JavaScript regex `/[/\\]/` used by
`partialName`. -/
def isSep (c : Char) : Bool := c = '/' || c = '\\'

/-- JavaScript `String.prototype.split` with the separator class `isSep`:
splits into (possibly empty) groups between separator characters. -/
def splitChars : List Char → List (List Char)
  | [] => [[]]
  | c :: cs =>
    if isSep c then [] :: splitChars cs
    else
      match splitChars cs with
      | [] => [[c]]
      | g :: gs => (c :: g) :: gs

/-- JavaScript `String.prototype.replace` with a plain-string pattern replaces
only the first occurrence of the pattern. -/
def replFirstAux (pat repl : List Char) : List Char → List Char
  | [] => []
  | c :: cs =>
    if pat.isPrefixOf (c :: cs) then repl ++ (c :: cs).drop pat.length
    else c :: replFirstAux pat repl cs

/-- JavaScript `s.endsWith(suffix)`. -/
def jsEndsWith (s suffix : String) : Bool := suffix.data.isSuffixOf s.data

/-- The indexing `parts[parts.length - 1]`: the last element of a nonempty
list of path segments (an empty list cannot arise from a split). -/
def lastD : List (List Char) → List Char
  | [] => []
  | [g] => g
  | _ :: g :: gs => lastD (g :: gs)

/-- `is.empty` from `@toba/tools` applied to a string: true exactly on the
empty string (or a missing value, which we do not need to represent). -/
def isEmptyText (s : String) : Bool := s = ""

/-! ## Templates and compiled artifacts -/

/-- Abstract syntax of a compiled template as far as the engine observes it: a
sequence of literal text chunks and mustache references into the render
context. -/
inductive Tok where
  | text : String → Tok
  | ref : String → Tok
deriving DecidableEq, Repr

/-- A template body. -/
abbrev Template := List Tok

/-- A compiled template artifact: `Handlebars.compile` returns a fresh function
object on every call, so an artifact carries a creation identity (allocation
counter value) along with its source. Two artifacts are the same reference
exactly when they are equal. -/
structure Artifact where
  id : Nat
  src : Template
deriving DecidableEq, Repr

/-- A value stored in a render context: either a string or a compiled template
delegate (JavaScript lets any value be assigned to a context field). -/
inductive Val where
  | str : String → Val
  | tmpl : Artifact → Val
deriving DecidableEq, Repr

/-- A render context: ordered field/value mapping. -/
abbrev Context := List (String × Val)

/-- Field lookup in string-only data (used for the helper-options object). -/
def lookupStr (key : String) : List (String × String) → Option String
  | [] => none
  | (k, v) :: rest => if k = key then some v else lookupStr key rest

/-- Field lookup in a render context. -/
def lookupCtx (key : String) : Context → Option Val
  | [] => none
  | (k, v) :: rest => if k = key then some v else lookupCtx key rest

/-- JavaScript property assignment `context[key] = v`: overwrite an existing
field or append a new one. -/
def ctxSet (key : String) (v : Val) : Context → Context
  | [] => [(key, v)]
  | (k, w) :: rest => if k = key then (k, v) :: rest else (k, w) :: ctxSet key v rest

/-- The helper-options object Handlebars passes when it invokes a function
found in the context: its data fields are the mustache name (plus hash/data
objects that carry no user fields). -/
def optionsObject (name : String) : List (String × String) := [("name", name)]

/-- Rendering a template against string-only data (the shape of the
helper-options object): a missing field renders as the empty string. -/
def renderSimple (t : Template) (data : List (String × String)) : String :=
  match t with
  | [] => ""
  | Tok.text s :: rest => s ++ renderSimple rest data
  | Tok.ref n :: rest =>
    (match lookupStr n data with
     | some s => s
     | none => "") ++ renderSimple rest data

/-- External Handlebars runtime: render a template against a context. A
mustache whose value is a string emits it; a mustache whose value is a
compiled template function is invoked by the runtime with the helper-options
object as its sole argument, so the delegate renders with that object as its
data context; a missing field renders as the empty string. -/
def renderTemplate (t : Template) (ctx : Context) : String :=
  match t with
  | [] => ""
  | Tok.text s :: rest => s ++ renderTemplate rest ctx
  | Tok.ref n :: rest =>
    (match lookupCtx n ctx with
     | some (Val.str s) => s
     | some (Val.tmpl a) => renderSimple a.src (optionsObject n)
     | none => "") ++ renderTemplate rest ctx

/-! ## Engine state: compiled-template cache and read accounting -/

/-- Lookup in the compiled-template cache (`Cache.contains` / `Cache.get`). -/
def lookupA (key : String) : List (String × Artifact) → Option Artifact
  | [] => none
  | (k, a) :: rest => if k = key then some a else lookupA key rest

/-- `Cache.add`: insert, overwriting any existing entry for the key. -/
def insertA (key : String) (a : Artifact) : List (String × Artifact) → List (String × Artifact)
  | [] => [(key, a)]
  | (k, b) :: rest => if k = key then (k, a) :: rest else (k, b) :: insertA key a rest

/-- Mutable engine state touched by `loadTemplate`: the compiled-template
cache, the allocation counter for compiled function identities, and the count
of `fs.readFile` calls issued. -/
structure EngineState where
  cache : List (String × Artifact)
  nextId : Nat
  reads : Nat
deriving DecidableEq, Repr

/-- The state of a freshly constructed `ExpressHandlebars` (empty cache). -/
def initState : EngineState := ⟨[], 0, 0⟩

/-- The filesystem: a map from path to optional (already parsed) file
content. `none` means `fs.readFile` fails for that path. -/
abbrev FileSystem := String → Option Template

/-- `ExpressHandlebars.loadTemplate` (src/unnamed/part_008 lines 225-254):
if the cache contains the path, resolve the cached artifact with no I/O;
otherwise issue `fs.readFile` (counted even when it fails), and on success
compile, store in the cache, and resolve the fresh artifact; on failure reject
with the error, leaving the cache untouched. -/
def loadTemplate (fs : FileSystem) (p : String) (s : EngineState) :
    Except String Artifact × EngineState :=
  match lookupA p s.cache with
  | some a => (Except.ok a, s)
  | none =>
    let s1 : EngineState := { s with reads := s.reads + 1 }
    match fs p with
    | none => (Except.error p, s1)
    | some src =>
      let a : Artifact := ⟨s1.nextId, src⟩
      (Except.ok a, { s1 with cache := insertA p a s1.cache, nextId := s1.nextId + 1 })

/-! ## Options and the constructor -/

/-- `ExpressHandlebarsOptions` (src/unnamed/part_008 lines 12-26). -/
structure ExpressHandlebarsOptions where
  defaultLayout : String
  partialsFolder : String
  layoutsFolder : String
  cacheTemplates : Bool
  fileExtension : String
deriving DecidableEq, Repr

/-- `defaultOptions` (src/unnamed/part_008 lines 66-72). -/
def defaultOptions : ExpressHandlebarsOptions :=
  { defaultLayout := "main"
    partialsFolder := "partials"
    layoutsFolder := "layouts"
    cacheTemplates := true
    fileExtension := "hbs" }

/-- `ExpressHandlebars.addExtension` (src/unnamed/part_008 lines 148-151):
keep an empty name or a name already ending with the extension text, else
append a dot and the extension. -/
def addExtension (fileExtension filePath : String) : String :=
  if isEmptyText filePath || jsEndsWith filePath fileExtension then filePath
  else filePath ++ "." ++ fileExtension

/-- The constructor's normalization of the configured options
(src/unnamed/part_008 lines 105-119): the default layout name gets the file
extension appended. Per-request layout names receive no such treatment. -/
def constructorOptions (options : ExpressHandlebarsOptions) : ExpressHandlebarsOptions :=
  { options with defaultLayout := addExtension options.fileExtension options.defaultLayout }

/-- `ExpressHandlebars.partialName` (src/unnamed/part_008 lines 156-159):
split the full path on slash or backslash, take the final segment, and delete
the first occurrence of dot-plus-extension from it. -/
def partialName (fileExtension filePath : String) : String :=
  ⟨replFirstAux ('.' :: fileExtension.data) [] (lastD (splitChars filePath.data))⟩

/-! ## Layout selection and the renderer -/

/-- The `context.layout` field as the renderer distinguishes it: absent
(JavaScript `undefined`), explicitly `null`, or a layout name. -/
inductive LayoutSetting where
  | unset : LayoutSetting
  | null : LayoutSetting
  | name : String → LayoutSetting
deriving DecidableEq, Repr

/-- `path.join` of three normalized segments. -/
def pathJoin3 (a b c : String) : String := a ++ "/" ++ b ++ "/" ++ c

/-- The layout chosen by `renderer` (src/unnamed/part_008 lines 179-182):
an absent `context.layout` selects the configured default layout, `null`
means no layout, and a name is used verbatim. -/
def selectLayout (options : ExpressHandlebarsOptions) : LayoutSetting → Option String
  | LayoutSetting.unset => some options.defaultLayout
  | LayoutSetting.null => none
  | LayoutSetting.name s => some s

/-- The layout template path `renderer` resolves (src/unnamed/part_008 lines
186-194): base path, layouts folder, then the selected layout name as is. -/
def layoutPathFor (options : ExpressHandlebarsOptions) (basePath : String)
    (ls : LayoutSetting) : Option String :=
  (selectLayout options ls).map (pathJoin3 basePath options.layoutsFolder)

/-- `ExpressHandlebars.renderer` followed by `render`
(src/unnamed/part_008 lines 174-218), with partial loading already complete:
when a layout applies, `context.body` is assigned the value of
`await this.loadTemplate(viewPath)` — the compiled view template delegate
itself, not a rendered string — and the layout template is then loaded and
invoked with the updated context; with no layout the view template is loaded
and invoked with the unchanged context. -/
def renderer (fs : FileSystem) (options : ExpressHandlebarsOptions) (basePath viewPath : String)
    (ctx : Context) (ls : LayoutSetting) (s : EngineState) :
    Except String String × EngineState :=
  match layoutPathFor options basePath ls with
  | some layoutPath =>
    match loadTemplate fs viewPath s with
    | (Except.error e, s1) => (Except.error e, s1)
    | (Except.ok viewTemplate, s1) =>
      let ctx1 := ctxSet "body" (Val.tmpl viewTemplate) ctx
      match loadTemplate fs layoutPath s1 with
      | (Except.error e, s2) => (Except.error e, s2)
      | (Except.ok layoutTemplate, s2) =>
        (Except.ok (renderTemplate layoutTemplate.src ctx1), s2)
  | none =>
    match loadTemplate fs viewPath s with
    | (Except.error e, s1) => (Except.error e, s1)
    | (Except.ok t, s1) => (Except.ok (renderTemplate t.src ctx), s1)

/-- The class method `loadTemplate` seen with the instance options in scope:
its body never consults `options.cacheTemplates` (src/unnamed/part_008 lines
225-254 contain no reference to the option), so the options argument is
unused. -/
def loadTemplateWithOptions (_options : ExpressHandlebarsOptions) (fs : FileSystem)
    (p : String) (s : EngineState) : Except String Artifact × EngineState :=
  loadTemplate fs p s

/-- Two simultaneous first-time `loadTemplate` calls for the same path on the
Node event loop: both synchronous `cache.contains` checks run before either
`fs.readFile` callback fires (callbacks only run once the call stack unwinds),
so on a shared miss both reads are issued, then each callback compiles and
stores; the second `Cache.add` overwrites the first entry. On a shared hit
both resolve the cached artifact with no I/O. -/
def twoConcurrentLoads (fs : FileSystem) (p : String) (s0 : EngineState) :
    (Except String Artifact × Except String Artifact) × EngineState :=
  match lookupA p s0.cache with
  | some a => ((Except.ok a, Except.ok a), s0)
  | none =>
    let s1 : EngineState := { s0 with reads := s0.reads + 2 }
    match fs p with
    | none => ((Except.error p, Except.error p), s1)
    | some src =>
      let a1 : Artifact := ⟨s1.nextId, src⟩
      let s2 : EngineState := { s1 with cache := insertA p a1 s1.cache, nextId := s1.nextId + 1 }
      let a2 : Artifact := ⟨s2.nextId, src⟩
      let s3 : EngineState := { s2 with cache := insertA p a2 s2.cache, nextId := s2.nextId + 1 }
      ((Except.ok a1, Except.ok a2), s3)

/-! ## Placeholder registry (src/lib/placeholder-helper.ts) -/

/-- The `contentMap`: block name to ordered contributed fragments. -/
abbrev PlaceholderMap := List (String × List String)

/-- `contentMap.has`/`contentMap.get` combined. -/
def lookupPH (key : String) : PlaceholderMap → Option (List String)
  | [] => none
  | (k, l) :: rest => if k = key then some l else lookupPH key rest

/-- `contentMap.delete`: remove the entry for the key (a JavaScript `Map`
holds at most one entry per key). -/
def removePH (key : String) : PlaceholderMap → PlaceholderMap
  | [] => []
  | (k, l) :: rest => if k = key then rest else (k, l) :: removePH key rest

/-- `addContent` (src/lib/placeholder-helper.ts lines 68-80): push the
rendered fragment onto the (possibly newly created) list for the key. -/
def addContent (key rendered : String) : PlaceholderMap → PlaceholderMap
  | [] => [(key, [rendered])]
  | (k, l) :: rest =>
    if k = key then (k, l ++ [rendered]) :: rest
    else (k, l) :: addContent key rendered rest

/-- `getContent` (src/lib/placeholder-helper.ts lines 53-60): if the key is
present, join its fragments with a newline and delete the entry; otherwise
return the empty string and leave the map unchanged. -/
def getContent (key : String) (m : PlaceholderMap) : String × PlaceholderMap :=
  match lookupPH key m with
  | some l => (String.intercalate "\n" l, removePH key m)
  | none => ("", m)

/-- The `placeholder` block helper (src/lib/placeholder-helper.ts lines 20-30,
identically src/unnamed/part_008 lines 126-132): read and drain the block
content; if the result is empty and a default-content block was supplied,
return the rendered default instead (without storing it). The optional
argument is the rendered output of `options.fn` when that is callable. -/
def placeholder (name : String) (optionsFn : Option String) (m : PlaceholderMap) :
    String × PlaceholderMap :=
  let r := getContent name m
  if isEmptyText r.1 && optionsFn.isSome then (optionsFn.getD "", r.2) else r

end TobaHandlebars

namespace TobaHandlebars

/-! ## Shared concrete inputs for witnesses and evaluations -/

/-- A one-file mock filesystem. -/
def mockFs : FileSystem := fun q => if q = "/v/a.hbs" then some [Tok.text "hi"] else none

/-- Filesystem for the layout-composition scenario: a view referencing the
context field `key`, and the default layout wrapping the body field. -/
def compositionFs : FileSystem := fun q =>
  if q = "/views/page.hbs" then some [Tok.ref "key"]
  else if q = "/views/layouts/main.hbs" then some [Tok.text "A", Tok.ref "body", Tok.text "B"]
  else none

/-- The configured options with template caching switched off. -/
def optionsNoCache : ExpressHandlebarsOptions := { defaultOptions with cacheTemplates := false }

end TobaHandlebars

deriving instance DecidableEq for Except

namespace TobaHandlebars

/-! ## Helper lemmas -/

theorem intercalate_pair (a b : String) : String.intercalate "\n" [a, b] = a ++ "\n" ++ b := rfl

theorem getContent_absent (x : String) (m : PlaceholderMap) (h : lookupPH x m = none) :
    getContent x m = ("", m) := by
  simp [getContent, h]

theorem addContent_cons_ne (x k v : String) (l : List String) (t : PlaceholderMap)
    (hk : k ≠ x) : addContent x v ((k, l) :: t) = (k, l) :: addContent x v t := by
  simp [addContent, hk]

theorem getContent_cons_ne (x k : String) (l : List String) (t : PlaceholderMap)
    (hk : k ≠ x) :
    getContent x ((k, l) :: t) = ((getContent x t).1, (k, l) :: (getContent x t).2) := by
  cases hl : lookupPH x t with
  | none => simp [getContent, lookupPH, hk, hl]
  | some u => simp [getContent, lookupPH, removePH, hk, hl]

theorem splitChars_cons_sep (c : Char) (cs : List Char) (h : isSep c = true) :
    splitChars (c :: cs) = [] :: splitChars cs := by
  simp [splitChars, h]

theorem splitChars_cons_ns (c : Char) (cs : List Char) (g : List Char) (gs : List (List Char))
    (h : isSep c = false) (hsp : splitChars cs = g :: gs) :
    splitChars (c :: cs) = (c :: g) :: gs := by
  simp [splitChars, h, hsp]

theorem splitChars_ne_nil : ∀ l : List Char, splitChars l ≠ []
  | [] => by simp [splitChars]
  | c :: cs => by
    cases hc : isSep c with
    | true => rw [splitChars_cons_sep c cs hc]; simp
    | false =>
      cases hsp : splitChars cs with
      | nil => exact absurd hsp (splitChars_ne_nil cs)
      | cons g gs => rw [splitChars_cons_ns c cs g gs hc hsp]; simp

theorem lastD_cons_ne_nil (g : List Char) (t : List (List Char)) (ht : t ≠ []) :
    lastD (g :: t) = lastD t := by
  cases t with
  | nil => exact absurd rfl ht
  | cons g1 t1 => rfl

theorem two_le_length_splitChars_append :
    ∀ (a b : List Char), 2 ≤ (splitChars (a ++ '/' :: b)).length
  | [], b => by
    rw [List.nil_append, splitChars_cons_sep '/' b (by decide)]
    have hb : splitChars b ≠ [] := splitChars_ne_nil b
    have hpos : 0 < (splitChars b).length := List.length_pos.mpr hb
    simp only [List.length_cons]
    omega
  | c :: a, b => by
    have ih := two_le_length_splitChars_append a b
    rw [List.cons_append]
    cases hc : isSep c with
    | true =>
      rw [splitChars_cons_sep c _ hc]
      simp only [List.length_cons]
      omega
    | false =>
      cases hsp : splitChars (a ++ '/' :: b) with
      | nil => exact absurd hsp (splitChars_ne_nil _)
      | cons g gs =>
        rw [splitChars_cons_ns c _ g gs hc hsp]
        rw [hsp] at ih
        simp only [List.length_cons] at ih ⊢
        omega

theorem lastD_splitChars_append :
    ∀ (a b : List Char), lastD (splitChars (a ++ '/' :: b)) = lastD (splitChars b)
  | [], b => by
    rw [List.nil_append, splitChars_cons_sep '/' b (by decide)]
    exact lastD_cons_ne_nil _ _ (splitChars_ne_nil b)
  | c :: a, b => by
    have ih := lastD_splitChars_append a b
    rw [List.cons_append]
    cases hc : isSep c with
    | true =>
      rw [splitChars_cons_sep c _ hc, lastD_cons_ne_nil _ _ (splitChars_ne_nil _)]
      exact ih
    | false =>
      cases hsp : splitChars (a ++ '/' :: b) with
      | nil => exact absurd hsp (splitChars_ne_nil _)
      | cons g gs =>
        have hlen := two_le_length_splitChars_append a b
        rw [hsp] at hlen ih
        have hgs : gs ≠ [] := by
          intro hg
          rw [hg] at hlen
          simp at hlen
        rw [splitChars_cons_ns c _ g gs hc hsp]
        rw [lastD_cons_ne_nil _ _ hgs]
        rw [lastD_cons_ne_nil _ _ hgs] at ih
        exact ih

theorem data_append_slash (d f : String) : (d ++ "/" ++ f).data = d.data ++ '/' :: f.data := by
  have h1 : (d ++ "/" ++ f).data = (d ++ "/").data ++ f.data := String.data_append _ _
  have h2 : (d ++ "/").data = d.data ++ ['/'] := String.data_append _ _
  rw [h1, h2, List.append_assoc]
  rfl

end TobaHandlebars

namespace TobaHandlebars

/-! ## Claim theorems -/

/-- C1: the claim states that rendering a view V with a layout L first renders
V with the request context to a body string, binds that string to the context
field `body`, and renders L with the updated context, so the output is L's
output with the body substitution equal to V's rendered output. The code
instead binds the compiled view template function itself (the awaited result
of `loadTemplate`) to `body` without ever invoking it with the request
context; the layout's body mustache then invokes that function with the
helper-options object, so the view's context references render empty. For the
view referencing `key`, the layout `A`-body-`B`, and the context binding `key`
to `value`, the engine produces `AB` although V renders to `value`, so the
claimed output would be `AvalueB`. -/
theorem renderer_binds_unrendered_body :
    (renderer compositionFs (constructorOptions defaultOptions) "/views" "/views/page.hbs"
        [("key", Val.str "value")] LayoutSetting.unset initState).1 = Except.ok "AB" ∧
    renderTemplate [Tok.ref "key"] [("key", Val.str "value")] = "value" ∧
    ("AB" : String) ≠ "A" ++ "value" ++ "B" := by decide

/-- C2: with caching in effect (the code always caches), loading the same
path twice from a fresh engine returns the identical compiled artifact both
times, performs exactly one file read, and the second call changes nothing
(no I/O, cache hit). -/
theorem loadTemplate_cached_idempotent (fs : FileSystem) (p : String) (src : Template)
    (hf : fs p = some src) :
    (loadTemplate fs p initState).1 = Except.ok ⟨0, src⟩ ∧
    (loadTemplate fs p (loadTemplate fs p initState).2).1 = Except.ok ⟨0, src⟩ ∧
    (loadTemplate fs p initState).2.reads = 1 ∧
    (loadTemplate fs p (loadTemplate fs p initState).2).2 = (loadTemplate fs p initState).2 := by
  simp [loadTemplate, initState, lookupA, insertA, hf]

/-- Witness for C2 at a concrete path and one-file filesystem. -/
theorem loadTemplate_cached_idempotent_witness :
    mockFs "/v/a.hbs" = some [Tok.text "hi"] ∧
    ((loadTemplate mockFs "/v/a.hbs" initState).1 = Except.ok ⟨0, [Tok.text "hi"]⟩ ∧
     (loadTemplate mockFs "/v/a.hbs" (loadTemplate mockFs "/v/a.hbs" initState).2).1 =
       Except.ok ⟨0, [Tok.text "hi"]⟩ ∧
     (loadTemplate mockFs "/v/a.hbs" initState).2.reads = 1 ∧
     (loadTemplate mockFs "/v/a.hbs" (loadTemplate mockFs "/v/a.hbs" initState).2).2 =
       (loadTemplate mockFs "/v/a.hbs" initState).2) :=
  ⟨by decide, loadTemplate_cached_idempotent mockFs "/v/a.hbs" [Tok.text "hi"] (by decide)⟩

/-- C3: contributing fragments A then B to a fresh block name and then reading
it yields A, a newline, then B, and removes the entry (the resulting map is
the original one), so a second read returns the empty string; reading a name
never contributed to returns the empty string and never fails. -/
theorem placeholder_drain_law (x A B : String) (m : PlaceholderMap)
    (h : lookupPH x m = none) :
    getContent x (addContent x B (addContent x A m)) = (A ++ "\n" ++ B, m) ∧
    getContent x m = ("", m) := by
  refine ⟨?_, getContent_absent x m h⟩
  induction m with
  | nil =>
    simp [addContent, getContent, lookupPH, removePH, intercalate_pair]
  | cons kl t ih =>
    obtain ⟨k, l⟩ := kl
    have hk : k ≠ x := by
      intro hkx
      rw [hkx] at h
      simp [lookupPH] at h
    have ht : lookupPH x t = none := by
      simpa [lookupPH, hk] using h
    rw [addContent_cons_ne x k A l t hk, addContent_cons_ne x k B _ _ hk,
        getContent_cons_ne x k l _ hk, ih ht]

/-- Witness for C3 on an empty registry. -/
theorem placeholder_drain_law_witness :
    lookupPH "x" ([] : PlaceholderMap) = none ∧
    (getContent "x" (addContent "x" "B" (addContent "x" "A" [])) = ("A" ++ "\n" ++ "B", []) ∧
     getContent "x" ([] : PlaceholderMap) = ("", [])) :=
  ⟨by decide, placeholder_drain_law "x" "A" "B" [] (by decide)⟩

/-- C4: a placeholder read with a default-content block, on a name never
contributed to, returns the default's output and leaves the registry
untouched, so a subsequent read of the name (without a default) still yields
the empty string. -/
theorem placeholder_default_not_cached (x d : String) (m : PlaceholderMap)
    (h : lookupPH x m = none) :
    placeholder x (some d) m = (d, m) ∧
    placeholder x none ((placeholder x (some d) m).2) = ("", m) := by
  have hg : getContent x m = ("", m) := getContent_absent x m h
  constructor
  · simp [placeholder, hg, isEmptyText]
  · simp [placeholder, hg, isEmptyText]

/-- Witness for C4 on an empty registry. -/
theorem placeholder_default_not_cached_witness :
    lookupPH "x" ([] : PlaceholderMap) = none ∧
    (placeholder "x" (some "D") [] = ("D", []) ∧
     placeholder "x" none ((placeholder "x" (some "D") []).2) = ("", [])) :=
  ⟨by decide, placeholder_default_not_cached "x" "D" [] (by decide)⟩

/-- C5: the claim states that with `cacheTemplates = false` every load forces
a recompile and a fresh file read. The loader never consults the option: with
`cacheTemplates = false`, the second load of the same path performs no file
read (the count stays at one) and returns the artifact stored by the first
load. -/
theorem loadTemplate_ignores_cacheTemplates :
    optionsNoCache.cacheTemplates = false ∧
    (loadTemplateWithOptions optionsNoCache mockFs "/v/a.hbs" initState).2.reads = 1 ∧
    (loadTemplateWithOptions optionsNoCache mockFs "/v/a.hbs"
        (loadTemplateWithOptions optionsNoCache mockFs "/v/a.hbs" initState).2).2.reads = 1 ∧
    (loadTemplateWithOptions optionsNoCache mockFs "/v/a.hbs"
        (loadTemplateWithOptions optionsNoCache mockFs "/v/a.hbs" initState).2).1 =
      (loadTemplateWithOptions optionsNoCache mockFs "/v/a.hbs" initState).1 := by decide

/-- C6 counterexample: two partials in different subdirectories with the same
file name receive the same registered name, and that name carries no
directory prefix, contradicting the claimed distinct directory-qualified
names. -/
theorem partialName_subdirectory_collision :
    partialName "hbs" "/views/partials/x/card.hbs" = "card" ∧
    partialName "hbs" "/views/partials/y/card.hbs" = "card" ∧
    ("card" : String) ≠ "x/card" := by decide

/-- C6 (amended): the registered partial name is derived from the file name
alone — every directory prefix is discarded, so prefixing any directory to a
path never changes the derived name. -/
theorem partialName_ignores_directory (fileExtension d f : String) :
    partialName fileExtension (d ++ "/" ++ f) = partialName fileExtension f := by
  unfold partialName
  rw [data_append_slash, lastD_splitChars_append]

/-- C7: the claim states that a selected layout name missing the file
extension gets it appended before path resolution, for per-request overrides
as well as the configured default. Only the constructor applies
`addExtension`, and only to the default layout: a per-request layout name
`other` resolves to the extensionless path, even though `addExtension` would
have produced `other.hbs` and the default layout does get `main.hbs`. -/
theorem perRequest_layout_extension_not_appended :
    layoutPathFor (constructorOptions defaultOptions) "/views" (LayoutSetting.name "other") =
      some "/views/layouts/other" ∧
    ("/views/layouts/other" : String) ≠ "/views/layouts/other.hbs" ∧
    addExtension "hbs" "other" = "other.hbs" ∧
    (constructorOptions defaultOptions).defaultLayout = "main.hbs" := by decide

/-- C8: the claim states that simultaneous first-time loads of one uncached
path coalesce into a single read and compile whose artifact is shared. Under
the event-loop schedule of two simultaneous requests, both synchronous cache
checks miss before either read callback runs: two reads are issued (not one)
and the two resolved artifacts are distinct compiled functions. -/
theorem concurrent_misses_double_read :
    ((twoConcurrentLoads mockFs "/v/a.hbs" initState).2.reads = 2 ∧
     (twoConcurrentLoads mockFs "/v/a.hbs" initState).2.reads ≠ 1) ∧
    (twoConcurrentLoads mockFs "/v/a.hbs" initState).1.1 ≠
      (twoConcurrentLoads mockFs "/v/a.hbs" initState).1.2 := by decide

/-- C9 counterexample: after two contributions that each render to the empty
string, the joined content is a lone newline — which is not empty — so a read
with a default-content block returns the newline, not the default. -/
theorem placeholder_two_empty_contributions :
    placeholder "x" (some "D") (addContent "x" "" (addContent "x" "" [])) = ("\n", []) ∧
    ("\n" : String) ≠ "D" := by decide

/-- C9 (amended): whenever the newline-join of the accumulated fragments for
a name is the empty string (for instance a single empty contribution), a read
with a default-content block returns the default's output — the fallback
fires on empty joined content, not only on absent entries — and the drained
entry is removed from the registry. -/
theorem placeholder_default_on_empty_join (x d : String) (l : List String) (m : PlaceholderMap)
    (h : lookupPH x m = some l) (hj : String.intercalate "\n" l = "") :
    placeholder x (some d) m = (d, removePH x m) := by
  simp [placeholder, getContent, h, hj, isEmptyText]

/-- Witness for the amended C9 with one empty contribution. -/
theorem placeholder_default_on_empty_join_witness :
    lookupPH "x" [("x", [""])] = some [""] ∧
    String.intercalate "\n" [""] = "" ∧
    placeholder "x" (some "D") [("x", [""])] = ("D", removePH "x" [("x", [""])]) :=
  ⟨by decide, by decide,
   placeholder_default_on_empty_join "x" "D" [""] [("x", [""])] (by decide) (by decide)⟩

/-- C10: when the file read for an uncached path fails, the loader rejects
with the read error, counts the attempted read, and leaves the cache
unchanged, so a subsequent load of the same path attempts the file read
again (and fails the same way). -/
theorem loadTemplate_read_error_atomic (fs : FileSystem) (p : String) (s : EngineState)
    (hc : lookupA p s.cache = none) (hf : fs p = none) :
    loadTemplate fs p s = (Except.error p, { s with reads := s.reads + 1 }) ∧
    loadTemplate fs p { s with reads := s.reads + 1 } =
      (Except.error p, { s with reads := s.reads + 2 }) := by
  constructor
  · simp [loadTemplate, hc, hf]
  · simp [loadTemplate, hc, hf]

/-- Witness for C10 at a missing path. -/
theorem loadTemplate_read_error_atomic_witness :
    lookupA "/missing" initState.cache = none ∧
    mockFs "/missing" = none ∧
    (loadTemplate mockFs "/missing" initState =
       (Except.error "/missing", { initState with reads := initState.reads + 1 }) ∧
     loadTemplate mockFs "/missing" { initState with reads := initState.reads + 1 } =
       (Except.error "/missing", { initState with reads := initState.reads + 2 })) :=
  ⟨by decide, by decide,
   loadTemplate_read_error_atomic mockFs "/missing" initState (by decide) (by decide)⟩

end TobaHandlebars
